import Mathlib

/-!
Shallow embedding of s3sync (src/main.rs).

Modelling conventions:
- Filesystem paths are lists of path components (`List String`); the leading
  root separator is implicit. `Path::strip_prefix` becomes `stripPrefixList`,
  `Path::to_str` on a relative path joins the components with "/". Every
  component is a Lean `String`, hence valid unicode, so the "Non-unicode path"
  failure of `object_key` cannot arise in the model.
- A compiled regular expression is modelled as its matching predicate
  `String → Bool` (the regex engine is an external collaborator).
- The outcomes of the external calls performed by `upload_file`
  (bucket/credential resolution, reading the file, the put-object request)
  and by `delete_source` (`std::fs::remove_file`) are supplied as boolean
  oracles; `true` means the call returns `Ok`.
- `anyhow::Error` values are abstracted to the small enum `SyncError`;
  `Result<(), anyhow::Error>` becomes `RunResult`.
-/

/-- Rust: `const DEFAULT_EVENT_WINDOW_SECONDS: u64 = 5;`. -/
def DEFAULT_EVENT_WINDOW_SECONDS : Nat := 5

/-- Rust struct `PathSettings { recursive: Option<bool>, window: Option<u64> }`. -/
structure PathSettings where
  recursive : Option Bool
  window : Option Nat
deriving DecidableEq

/-- Rust enum `notify::RecursiveMode`. -/
inductive RecursiveMode where
  | recursiveMode
  | nonRecursive
deriving DecidableEq

namespace PathSettings

/-- Rust `PathSettings::recursive(): self.recursive.unwrap_or(false)`.
Named `recursive_eff` because the Lean field is already named `recursive`. -/
def recursive_eff (s : PathSettings) : Bool :=
  s.recursive.getD false

/-- Rust `PathSettings::recursive_mode()`. -/
def recursive_mode (s : PathSettings) : RecursiveMode :=
  if s.recursive_eff then RecursiveMode.recursiveMode else RecursiveMode.nonRecursive

/-- Rust `PathSettings::window(): self.window.unwrap_or(DEFAULT_EVENT_WINDOW_SECONDS)`.
Named `window_eff` because the Lean field is already named `window`. -/
def window_eff (s : PathSettings) : Nat :=
  s.window.getD DEFAULT_EVENT_WINDOW_SECONDS

/-- Rust `impl std::ops::Add for PathSettings`: window is the minimum of the two
effective windows, recursive is false only when both sides are non-recursive. -/
def add (a b : PathSettings) : PathSettings :=
  let window := min a.window_eff b.window_eff
  let recursive : Bool :=
    match a.recursive_mode, b.recursive_mode with
    | RecursiveMode.nonRecursive, RecursiveMode.nonRecursive => false
    | _, _ => true
  { window := some window, recursive := some recursive }

/-- Rust `impl Default for PathSettings`. -/
def default : PathSettings :=
  { recursive := some false, window := some DEFAULT_EVENT_WINDOW_SECONDS }

end PathSettings

/-- Rust struct `AgentWatcher { local_path: PathBuf, settings: PathSettings }`. -/
structure AgentWatcher where
  local_path : List String
  settings : PathSettings
deriving DecidableEq

/-- Rust struct `Agent`. -/
structure Agent where
  watcher : AgentWatcher
  pattern : Option (String → Bool)
  bucket_name : Option String
  key_prefix : Option String
  profile_name : Option String
  region_name : Option String
  delete : Option Bool

/-- Rust `Path::strip_prefix` on component lists: `some` of the remaining
components when the first argument is a prefix of the second, `none` otherwise. -/
def stripPrefixList : List String → List String → Option (List String)
  | [], p => some p
  | _ :: _, [] => none
  | r :: rs, c :: cs => if r = c then stripPrefixList rs cs else none

/-- Rust `Path::to_str` on a relative path: components joined with "/". -/
def pathToStr (p : List String) : String :=
  String.intercalate "/" p

/-- The failures of `Agent::object_key`: the `strip_prefix` error (path outside
the watch root) and the "Does not match pattern" error. -/
inductive KeyError where
  | outsideRoot
  | patternMismatch
deriving DecidableEq

/-- The reported failures of `Agent::process_file`: the propagated error of
`upload_file` and the propagated error of `delete_source`. -/
inductive SyncError where
  | uploadFailed
  | deleteFailed
deriving DecidableEq

/-- Rust `Result<(), anyhow::Error>`. -/
inductive RunResult where
  | ok
  | err (e : SyncError)
deriving DecidableEq

/-- The observable outcome of one `Agent::process_file` call: its returned
`RunResult`, whether `upload_file` was invoked (and with which key) and whether
it returned Ok, whether `delete_source` was invoked, and whether the local file
was actually removed. -/
structure FileOutcome where
  result : RunResult
  upload_key : Option String
  upload_ok : Bool
  delete_invoked : Bool
  file_removed : Bool
deriving DecidableEq

namespace Agent

/-- Rust `Agent::object_key`: strip the watch root from the event path, check
the relative key against the configured pattern (default `.*`, which matches
every string), then prepend the optional key prefix by plain concatenation. -/
def object_key (a : Agent) (path : List String) : Except KeyError String :=
  match stripPrefixList a.watcher.local_path path with
  | none => Except.error KeyError.outsideRoot
  | some rel =>
    let key := pathToStr rel
    let applied_pattern := a.pattern.getD (fun _ => true)
    if applied_pattern key then
      Except.ok (match a.key_prefix with
        | some q => q ++ key
        | none => key)
    else
      Except.error KeyError.patternMismatch

/-- Rust `Agent::process_file`, with the external upload and remove_file
outcomes as oracles. Mirrors the source control flow: a failed `object_key`
skips silently and returns Ok; `upload_file` failure propagates with `?`
before `delete_source` is reached; `delete_source` runs only when the upload
succeeded and the delete flag is set, and its failure propagates with `?`. -/
def process_file (a : Agent) (file : List String) (uploadOk deleteOk : Bool) :
    FileOutcome :=
  match a.object_key file with
  | Except.error _ =>
    { result := RunResult.ok, upload_key := none, upload_ok := false,
      delete_invoked := false, file_removed := false }
  | Except.ok key =>
    if uploadOk then
      if a.delete.getD false then
        if deleteOk then
          { result := RunResult.ok, upload_key := some key, upload_ok := true,
            delete_invoked := true, file_removed := true }
        else
          { result := RunResult.err SyncError.deleteFailed, upload_key := some key,
            upload_ok := true, delete_invoked := true, file_removed := false }
      else
        { result := RunResult.ok, upload_key := some key, upload_ok := true,
          delete_invoked := false, file_removed := false }
    else
      { result := RunResult.err SyncError.uploadFailed, upload_key := some key,
        upload_ok := false, delete_invoked := false, file_removed := false }

end Agent

/-- Rust enum `DebouncedEventKind` (`Any` settled, `AnyContinuous` in progress). -/
inductive DebouncedEventKind where
  | any
  | anyContinuous
deriving DecidableEq

/-- Rust `DebouncedEvent`, extended with the answers the dispatch guard gets
from the filesystem at dispatch time (`path.exists()`, `path.is_file()`). -/
structure DebouncedEvent where
  kind : DebouncedEventKind
  path : List String
  path_exists : Bool
  is_file : Bool

/-- Rust struct `Manager { agents: Vec<Agent> }`. -/
structure Manager where
  agents : List Agent

/-- The grouping test of `Manager::watchers`: whether agent `a` watches root `r`. -/
def sameRoot (r : List String) (a : Agent) : Bool :=
  a.watcher.local_path = r

/-- One insert-or-combine step of the HashMap in `Manager::watchers`: with an
existing entry the new value is `agent.watcher.settings + settings` (new
settings on the left), otherwise the agent settings are inserted unchanged. -/
def step1 (acc : Option PathSettings) (s : PathSettings) : Option PathSettings :=
  match acc with
  | some t => some (PathSettings.add s t)
  | none => some s

namespace Manager

/-- The body of the `for agent in &self.agents` loop of `Manager::watchers`,
acting on the HashMap modelled as a function from root to optional settings. -/
def settingsMapStep (m : List String → Option PathSettings) (a : Agent) :
    List String → Option PathSettings :=
  fun r =>
    if r = a.watcher.local_path then
      step1 (m a.watcher.local_path) a.watcher.settings
    else
      m r

/-- The HashMap `path_settings` of `Manager::watchers` after the whole loop. -/
def settingsMap (mgr : Manager) : List String → Option PathSettings :=
  mgr.agents.foldl settingsMapStep (fun _ => none)

/-- Rust `Manager::watchers`: one `AgentWatcher` per distinct watch root,
carrying the folded settings of all agents sharing that root. The HashMap
iteration order is unspecified in Rust; the model lists the roots in first
occurrence order. -/
def watchers (mgr : Manager) : List AgentWatcher :=
  ((mgr.agents.map (fun a => a.watcher.local_path)).dedup).filterMap
    (fun r => (mgr.settingsMap r).map (fun s => AgentWatcher.mk r s))

end Manager

/-- The `for agent in &self.agents { agent.process_file(&event.path).await? }`
loop of `Manager::process_event`, starting at agent index `i`, with the upload
and delete oracles indexed by agent position. Returns the propagated result and
the trace of the agents actually invoked, each with its outcome; the `?`
operator stops the loop at the first failing agent. -/
def dispatchFrom : List Agent → Nat → List String → (Nat → Bool) → (Nat → Bool) →
    RunResult × List (Nat × FileOutcome)
  | [], _, _, _, _ => (RunResult.ok, [])
  | a :: rest, i, file, u, d =>
    let o := a.process_file file (u i) (d i)
    match o.result with
    | RunResult.err e => (RunResult.err e, [(i, o)])
    | RunResult.ok =>
      let t := dispatchFrom rest (i + 1) file u d
      (t.1, (i, o) :: t.2)

/-- Rust `Manager::process_event`: events still in progress, and paths that no
longer exist or are not regular files, are discarded without invoking any
agent; otherwise every agent is tried in order until the first failure. -/
def Manager.process_event (mgr : Manager) (event : DebouncedEvent)
    (u d : Nat → Bool) : RunResult × List (Nat × FileOutcome) :=
  if event.kind = DebouncedEventKind.any ∧ event.path_exists ∧ event.is_file then
    dispatchFrom mgr.agents 0 event.path u d
  else
    (RunResult.ok, [])

/-- The `for event in events { manager.process_event(&event).await? }` loop of
`main`, starting at event index `j`; the oracles take the event index first,
then the agent index. Returns the propagated result and the trace of the
events actually dispatched; the `?` operator stops the loop at the first
event whose dispatch fails. -/
def Manager.runEvents (mgr : Manager) :
    List DebouncedEvent → Nat → (Nat → Nat → Bool) → (Nat → Nat → Bool) →
    RunResult × List (Nat × (RunResult × List (Nat × FileOutcome)))
  | [], _, _, _ => (RunResult.ok, [])
  | e :: rest, j, u, d =>
    let r := mgr.process_event e (u j) (d j)
    match r.1 with
    | RunResult.err x => (RunResult.err x, [(j, r)])
    | RunResult.ok =>
      let t := mgr.runEvents rest (j + 1) u d
      (t.1, (j, r) :: t.2)

/-- Rust `window_seconds_range`: `clap_num::number_range(s, 1, 3600)`, modelled
after the numeric parse (string parsing belongs to clap). -/
def window_seconds_range (n : Nat) : Except String Nat :=
  if 1 ≤ n ∧ n ≤ 3600 then Except.ok n else Except.error "not in range"

/-- Rust struct `Cli` (module ux). The `--window` flag carries
`value_parser = window_seconds_range`; `prefix_arg` models the `--prefix`
flag; `config` holds the already-deserialized contents of the YAML config
file when `--config` was given (file reading and YAML parsing are external). -/
structure Cli where
  path : List String
  bucket : Option String
  prefix_arg : Option String
  pattern : Option (String → Bool)
  profile : Option String
  region : Option String
  delete : Option Bool
  recursive : Option Bool
  window : Nat
  config : Option (List Agent)

/-- Rust `impl TryFrom<Cli> for Manager`: with `--config` the manager is the
deserialized agent list, taken as is (no window validation happens on this
path); otherwise a single agent is built from the flags. -/
def Manager.tryFrom (value : Cli) : Except String Manager :=
  match value.config with
  | some agents => Except.ok { agents := agents }
  | none =>
    let path_settings : PathSettings :=
      { recursive := value.recursive, window := some value.window }
    let watcher : AgentWatcher :=
      { local_path := value.path, settings := path_settings }
    let agent : Agent :=
      { watcher := watcher, pattern := value.pattern, bucket_name := value.bucket,
        profile_name := value.profile, region_name := value.region,
        delete := value.delete, key_prefix := value.prefix_arg }
    Except.ok { agents := [agent] }

instance {ε α : Type} [DecidableEq ε] [DecidableEq α] : DecidableEq (Except ε α) :=
  fun a b =>
    match a, b with
    | Except.ok x, Except.ok y =>
      if h : x = y then isTrue (by rw [h]) else isFalse (by intro hc; cases hc; exact h rfl)
    | Except.error x, Except.error y =>
      if h : x = y then isTrue (by rw [h]) else isFalse (by intro hc; cases hc; exact h rfl)
    | Except.ok _, Except.error _ => isFalse (by intro hc; cases hc)
    | Except.error _, Except.ok _ => isFalse (by intro hc; cases hc)

/-- An agent watching /data with no pattern, no key prefix and no delete flag. -/
def agData : Agent :=
  { watcher := { local_path := ["data"], settings := { recursive := none, window := none } },
    pattern := none, bucket_name := some "bkt", key_prefix := none,
    profile_name := none, region_name := none, delete := some false }

/-- Like `agData` but with key prefix "uploads/". -/
def agDataUploads : Agent :=
  { watcher := { local_path := ["data"], settings := { recursive := none, window := none } },
    pattern := none, bucket_name := some "bkt2", key_prefix := some "uploads/",
    profile_name := none, region_name := none, delete := some false }

/-- Suffix test on strings, the model of the regex filter `\.csv$`. -/
def strEndsWith (s suf : String) : Bool :=
  suf.data.isSuffixOf s.data

/-- An agent watching /data that only accepts keys ending in ".csv". -/
def agCsv : Agent :=
  { watcher := { local_path := ["data"], settings := { recursive := none, window := none } },
    pattern := some (fun s => strEndsWith s ".csv"), bucket_name := some "bkt",
    key_prefix := none, profile_name := none, region_name := none, delete := none }

/-- Like `agData` but with a configurable pattern. -/
def agDataPat (p : String → Bool) : Agent :=
  { watcher := { local_path := ["data"], settings := { recursive := none, window := none } },
    pattern := some p, bucket_name := some "bkt", key_prefix := none,
    profile_name := none, region_name := none, delete := some false }

/-- An agent watching /data with delete-after-upload enabled. -/
def agDel : Agent :=
  { watcher := { local_path := ["data"], settings := { recursive := none, window := none } },
    pattern := none, bucket_name := some "bkt", key_prefix := none,
    profile_name := none, region_name := none, delete := some true }

/-- A settled event for the regular file /data/f.csv. -/
def evCsv : DebouncedEvent :=
  { kind := DebouncedEventKind.any, path := ["data", "f.csv"],
    path_exists := true, is_file := true }

/-- Two agents sharing the root /data, for the fan-out counterexample. -/
def mgrFan : Manager := { agents := [agData, agDataUploads] }

/-- A deleting agent followed by a sibling agent on the same root. -/
def mgrDel : Manager := { agents := [agDel, agData] }

/-- Settings with an explicit window of 10 seconds. -/
def psTen : PathSettings := { recursive := some false, window := some 10 }

/-- Agent on /data with window 10, non-recursive. -/
def agWa : Agent :=
  { watcher := { local_path := ["data"], settings := { recursive := some false, window := some 10 } },
    pattern := none, bucket_name := some "bkt", key_prefix := none,
    profile_name := none, region_name := none, delete := none }

/-- Agent on /data with window 3, recursive. -/
def agWb : Agent :=
  { watcher := { local_path := ["data"], settings := { recursive := some true, window := some 3 } },
    pattern := none, bucket_name := some "bkt2", key_prefix := none,
    profile_name := none, region_name := none, delete := none }

/-- Two agents sharing /data with different windows and recursion flags. -/
def mgrW : Manager := { agents := [agWa, agWb] }

/-- The single watcher `Manager::watchers` builds for `mgrW`. -/
def wW : AgentWatcher :=
  { local_path := ["data"], settings := { recursive := some true, window := some 3 } }

/-- A config-file agent whose window is 0, outside the documented 1-3600 bound. -/
def agWin0 : Agent :=
  { watcher := { local_path := ["data"], settings := { recursive := none, window := some 0 } },
    pattern := none, bucket_name := some "bkt", key_prefix := none,
    profile_name := none, region_name := none, delete := none }

/-- A Cli invocation loading a config file that contains `agWin0`. -/
def cliWin0 : Cli :=
  { path := ["data"], bucket := none, prefix_arg := none, pattern := none,
    profile := none, region := none, delete := none, recursive := none,
    window := 5, config := some [agWin0] }

/-- A Cli invocation with flags only and window 7. -/
def cliOk : Cli :=
  { path := ["data"], bucket := some "bkt", prefix_arg := none, pattern := none,
    profile := none, region := none, delete := none, recursive := none,
    window := 7, config := none }

/-- The manager `TryFrom<Cli>` builds from `cliOk`. -/
def agOk : Agent :=
  { watcher := { local_path := ["data"], settings := { recursive := none, window := some 7 } },
    pattern := none, bucket_name := some "bkt", key_prefix := none,
    profile_name := none, region_name := none, delete := none }

/-- The manager built from `cliOk` is the single agent `agOk`. -/
def mgrOk : Manager := { agents := [agOk] }

theorem PathSettings.window_eff_mk (r : Option Bool) (w : Nat) :
    (PathSettings.mk r (some w)).window_eff = w :=
  rfl

theorem PathSettings.recursive_eff_mk (b : Bool) (w : Option Nat) :
    (PathSettings.mk (some b) w).recursive_eff = b :=
  rfl

theorem PathSettings.add_eq (a b : PathSettings) :
    PathSettings.add a b =
      { recursive := some (a.recursive_eff || b.recursive_eff),
        window := some (min a.window_eff b.window_eff) } := by
  cases ha : a.recursive_eff <;> cases hb : b.recursive_eff <;>
    simp [PathSettings.add, PathSettings.recursive_mode, ha, hb]

/-- C4: the PathSettings addition (window = min of effective windows,
recursive = logical OR of effective flags) is commutative and associative. -/
theorem add_comm_assoc (a b c : PathSettings) :
    PathSettings.add a b = PathSettings.add b a ∧
    PathSettings.add (PathSettings.add a b) c =
      PathSettings.add a (PathSettings.add b c) := by
  constructor
  · simp [PathSettings.add_eq, Bool.or_comm, Nat.min_comm]
  · simp [PathSettings.add_eq, PathSettings.window_eff_mk, PathSettings.recursive_eff_mk,
      Bool.or_assoc, min_assoc]

/-- C5 counterexample: the default settings (window 5, recursive false) are not
an identity for the addition: adding them to explicit settings with window 10
clamps the window down to min(10, 5) = 5. -/
theorem add_default_not_identity_cex :
    ¬ (PathSettings.add psTen PathSettings.default = psTen ∧
        PathSettings.add PathSettings.default psTen = psTen) := by decide

/-- C5 amended: the default settings are an identity for the addition exactly
on settings whose fields are explicitly set and whose window is at most 5
seconds: for those, adding the default on either side returns them unchanged. -/
theorem add_default_identity_small_window (r : Bool) (w : Nat) (h : w ≤ 5) :
    PathSettings.add { recursive := some r, window := some w } PathSettings.default
        = { recursive := some r, window := some w } ∧
    PathSettings.add PathSettings.default { recursive := some r, window := some w }
        = { recursive := some r, window := some w } := by
  constructor <;>
    simp [PathSettings.add_eq, PathSettings.default, PathSettings.recursive_eff,
      PathSettings.window_eff, DEFAULT_EVENT_WINDOW_SECONDS, Nat.min_eq_left h,
      Nat.min_eq_right h]

theorem add_default_identity_small_window_witness :
    PathSettings.add { recursive := some true, window := some 3 } PathSettings.default
        = { recursive := some true, window := some 3 } ∧
    PathSettings.add PathSettings.default { recursive := some true, window := some 3 }
        = { recursive := some true, window := some 3 } :=
  add_default_identity_small_window true 3 (by decide)

/-- C6: when the event key derives successfully, delete_source is invoked iff
the upload succeeded and the delete flag is set; a failed upload never reaches
delete_source and leaves the file in place; and when the filesystem removal
itself succeeds, the file is removed iff the upload succeeded with the flag set. -/
theorem delete_iff_upload_and_flag (a : Agent) (path : List String) (key : String)
    (uploadOk deleteOk : Bool) (hk : a.object_key path = Except.ok key) :
    ((a.process_file path uploadOk deleteOk).delete_invoked = true ↔
        uploadOk = true ∧ a.delete.getD false = true) ∧
    (uploadOk = false →
        (a.process_file path uploadOk deleteOk).delete_invoked = false ∧
        (a.process_file path uploadOk deleteOk).file_removed = false) ∧
    (deleteOk = true →
        ((a.process_file path uploadOk deleteOk).file_removed = true ↔
          uploadOk = true ∧ a.delete.getD false = true)) := by
  unfold Agent.process_file
  rw [hk]
  cases uploadOk <;> cases hd : a.delete.getD false <;> cases deleteOk <;> simp [hd]

theorem delete_iff_upload_and_flag_witness :
    (agDel.process_file ["data", "f.csv"] true true).delete_invoked = true := by
  have h := delete_iff_upload_and_flag agDel ["data", "f.csv"] "f.csv" true true (by decide)
  exact h.1.mpr ⟨rfl, by decide⟩

/-- C7: key derivation round-trip: for root /data and event /data/sub/file.txt,
no prefix yields "sub/file.txt" and prefix "uploads/" yields
"uploads/sub/file.txt"; in general every successfully derived key is the
optional prefix concatenated directly in front of the relative path string,
with no separator inserted. -/
theorem object_key_round_trip :
    agData.object_key ["data", "sub", "file.txt"] = Except.ok "sub/file.txt" ∧
    agDataUploads.object_key ["data", "sub", "file.txt"]
        = Except.ok "uploads/sub/file.txt" ∧
    ∀ (a : Agent) (p : List String) (k : String),
      a.object_key p = Except.ok k →
      ∃ rel, stripPrefixList a.watcher.local_path p = some rel ∧
        ((a.key_prefix = none ∧ k = pathToStr rel) ∨
          ∃ q, a.key_prefix = some q ∧ k = q ++ pathToStr rel) := by
  refine ⟨by decide, by decide, ?_⟩
  intro a p k h
  unfold Agent.object_key at h
  rcases hs : stripPrefixList a.watcher.local_path p with _ | rel
  · rw [hs] at h
    cases h
  · rw [hs] at h
    refine ⟨rel, rfl, ?_⟩
    simp only [] at h
    by_cases hp : (a.pattern.getD fun _ => true) (pathToStr rel) = true
    · rw [if_pos hp] at h
      cases hq : a.key_prefix with
      | none =>
        rw [hq] at h
        cases h
        exact Or.inl ⟨rfl, rfl⟩
      | some q =>
        rw [hq] at h
        cases h
        exact Or.inr ⟨q, rfl, rfl⟩
    · rw [if_neg hp] at h
      cases h

/-- C8: when the event path is not under the agent root, or the relative key
fails the applied pattern, process_file returns Ok without invoking the
uploader or delete_source: the event is silently skipped for that agent. -/
theorem skip_outside_or_mismatch (a : Agent) (path : List String)
    (uploadOk deleteOk : Bool)
    (h : stripPrefixList a.watcher.local_path path = none ∨
      ∃ rel, stripPrefixList a.watcher.local_path path = some rel ∧
        (a.pattern.getD fun _ => true) (pathToStr rel) = false) :
    a.process_file path uploadOk deleteOk =
      { result := RunResult.ok, upload_key := none, upload_ok := false,
        delete_invoked := false, file_removed := false } := by
  have hk : ∃ e, a.object_key path = Except.error e := by
    rcases h with h | ⟨rel, hs, hp⟩
    · exact ⟨KeyError.outsideRoot, by simp [Agent.object_key, h]⟩
    · exact ⟨KeyError.patternMismatch, by simp [Agent.object_key, hs, hp]⟩
  obtain ⟨e, he⟩ := hk
  unfold Agent.process_file
  rw [he]

theorem skip_outside_or_mismatch_witness :
    agCsv.process_file ["data", "b.txt"] true true =
      { result := RunResult.ok, upload_key := none, upload_ok := false,
        delete_invoked := false, file_removed := false } :=
  skip_outside_or_mismatch agCsv ["data", "b.txt"] true true
    (Or.inr ⟨["b.txt"], by decide, by decide⟩)

/-- C10: the configured pattern is evaluated against the entire relative path
string, directory components included: with the root stripped to `rel`, the
outcome of object_key depends on the pattern only through its value at
`pathToStr rel`; in particular for root /data and event /data/sub/file.txt the
pattern is applied to "sub/file.txt". -/
theorem pattern_on_full_relative_path :
    (∀ (a : Agent) (path rel : List String) (p : String → Bool),
      a.pattern = some p →
      stripPrefixList a.watcher.local_path path = some rel →
      a.object_key path =
        if p (pathToStr rel) then
          Except.ok (match a.key_prefix with
            | some q => q ++ pathToStr rel
            | none => pathToStr rel)
        else Except.error KeyError.patternMismatch) ∧
    (∀ p : String → Bool,
      (agDataPat p).object_key ["data", "sub", "file.txt"] =
        if p "sub/file.txt" then Except.ok "sub/file.txt"
        else Except.error KeyError.patternMismatch) := by
  have main : ∀ (a : Agent) (path rel : List String) (p : String → Bool),
      a.pattern = some p →
      stripPrefixList a.watcher.local_path path = some rel →
      a.object_key path =
        if p (pathToStr rel) then
          Except.ok (match a.key_prefix with
            | some q => q ++ pathToStr rel
            | none => pathToStr rel)
        else Except.error KeyError.patternMismatch := by
    intro a path rel p hp hs
    unfold Agent.object_key
    rw [hs, hp]
    rfl
  refine ⟨main, ?_⟩
  intro p
  have hs : stripPrefixList (agDataPat p).watcher.local_path ["data", "sub", "file.txt"]
      = some ["sub", "file.txt"] := by
    show stripPrefixList ["data"] ["data", "sub", "file.txt"] = some ["sub", "file.txt"]
    decide
  have h := main (agDataPat p) ["data", "sub", "file.txt"] ["sub", "file.txt"] p rfl hs
  rw [h]
  have hstr : pathToStr ["sub", "file.txt"] = "sub/file.txt" := by decide
  rw [hstr]
  rfl

/-- C9 counterexample: a Manager loaded from a config file can hold an agent
whose effective debounce window is 0, outside the documented 1-3600 bound:
`TryFrom<Cli>` performs no window validation on the config path. -/
theorem config_window_unvalidated_cex :
    ((Manager.tryFrom cliWin0).toOption.map
        (fun m => m.agents.map (fun a => a.watcher.settings.window_eff))) = some [0] ∧
    ¬ (1 ≤ (0 : Nat)) := by decide

/-- C9 amended: only Managers built from command-line flags satisfy the window
invariant: when no config file is given and clap's window parser accepted the
value, every agent of the constructed Manager has its effective debounce window
within 1 to 3600 seconds; the config-file path performs no such validation. -/
theorem cli_window_in_bounds (value : Cli) (mgr : Manager)
    (hc : value.config = none)
    (hw : window_seconds_range value.window = Except.ok value.window)
    (hm : Manager.tryFrom value = Except.ok mgr) :
    ∀ a ∈ mgr.agents,
      1 ≤ a.watcher.settings.window_eff ∧ a.watcher.settings.window_eff ≤ 3600 := by
  have hb : 1 ≤ value.window ∧ value.window ≤ 3600 := by
    by_cases h : 1 ≤ value.window ∧ value.window ≤ 3600
    · exact h
    · simp [window_seconds_range, h] at hw
  unfold Manager.tryFrom at hm
  rw [hc] at hm
  simp only [Except.ok.injEq] at hm
  subst hm
  intro a ha
  simp only [List.mem_singleton] at ha
  subst ha
  simpa [PathSettings.window_eff] using hb

theorem cli_window_in_bounds_witness :
    1 ≤ agOk.watcher.settings.window_eff ∧ agOk.watcher.settings.window_eff ≤ 3600 :=
  cli_window_in_bounds cliOk mgrOk rfl (by decide) rfl agOk (List.mem_cons_self agOk [])

/-- C1 counterexample: two agents share the root /data; the upload oracle fails
for agent 0 and would succeed for agent 1, yet dispatching the event invokes
only agent 0 (the trace lists index 0 alone) and propagates the error: the
failure prevents the remaining agent from being tried. -/
theorem fanout_isolation_cex :
    Manager.process_event mgrFan evCsv (fun i => i == 1) (fun _ => true) =
      (RunResult.err SyncError.uploadFailed,
        [(0, { result := RunResult.err SyncError.uploadFailed, upload_key := some "f.csv",
               upload_ok := false, delete_invoked := false, file_removed := false })]) ∧
    (Manager.process_event mgrFan evCsv (fun i => i == 1) (fun _ => true)).2.map Prod.fst
      = [0] := by decide

/-- C1 amended: a failure from one agent's process_file is propagated to the
caller and aborts the dispatch: the agents after the failing one are not
invoked for that event, and the remaining events of the batch are not
processed (the event loop stops with the error). -/
theorem dispatch_aborts_on_failure (a : Agent) (rest : List Agent) (i : Nat)
    (file : List String) (u d : Nat → Bool) (e : SyncError)
    (h : (a.process_file file (u i) (d i)).result = RunResult.err e) :
    dispatchFrom (a :: rest) i file u d =
      (RunResult.err e, [(i, a.process_file file (u i) (d i))]) ∧
    ∀ (mgr : Manager) (ev : DebouncedEvent) (evs : List DebouncedEvent)
      (j : Nat) (u2 d2 : Nat → Nat → Bool) (x : SyncError),
      (mgr.process_event ev (u2 j) (d2 j)).1 = RunResult.err x →
      mgr.runEvents (ev :: evs) j u2 d2 =
        (RunResult.err x, [(j, mgr.process_event ev (u2 j) (d2 j))]) := by
  constructor
  · simp [dispatchFrom, h]
  · intro mgr ev evs j u2 d2 x hx
    simp [Manager.runEvents, hx]

theorem dispatch_aborts_on_failure_witness :
    dispatchFrom [agData, agDataUploads] 0 ["data", "f.csv"]
        (fun _ => false) (fun _ => true) =
      (RunResult.err SyncError.uploadFailed,
        [(0, agData.process_file ["data", "f.csv"] false true)]) :=
  (dispatch_aborts_on_failure agData [agDataUploads] 0 ["data", "f.csv"]
    (fun _ => false) (fun _ => true) SyncError.uploadFailed (by decide)).1

/-- C2 counterexample: an agent with delete_after_upload whose upload succeeds
and whose local delete fails makes process_event return the delete error with
a trace listing that agent alone: the sibling agent on the same root is never
invoked, so the delete failure does abort further processing. -/
theorem delete_failure_aborts_cex :
    Manager.process_event mgrDel evCsv (fun _ => true) (fun _ => false) =
      (RunResult.err SyncError.deleteFailed,
        [(0, { result := RunResult.err SyncError.deleteFailed, upload_key := some "f.csv",
               upload_ok := true, delete_invoked := true, file_removed := false })]) ∧
    (Manager.process_event mgrDel evCsv (fun _ => true) (fun _ => false)).2.map Prod.fst
      = [0] := by decide

/-- C2 amended: when the upload succeeds and the local delete fails, the delete
failure is reported as the returned error and the completed upload is not
undone (the outcome still records the successful upload), but the error
propagates and aborts the processing of further agents and events. -/
theorem delete_failure_reported_aborts (a : Agent) (path : List String) (key : String)
    (hk : a.object_key path = Except.ok key)
    (hd : a.delete.getD false = true) :
    a.process_file path true false =
      { result := RunResult.err SyncError.deleteFailed, upload_key := some key,
        upload_ok := true, delete_invoked := true, file_removed := false } ∧
    ∀ (rest : List Agent) (i : Nat),
      dispatchFrom (a :: rest) i path (fun _ => true) (fun _ => false) =
        (RunResult.err SyncError.deleteFailed,
          [(i, a.process_file path true false)]) := by
  have h1 : a.process_file path true false =
      { result := RunResult.err SyncError.deleteFailed, upload_key := some key,
        upload_ok := true, delete_invoked := true, file_removed := false } := by
    unfold Agent.process_file
    rw [hk]
    simp [hd]
  refine ⟨h1, ?_⟩
  intro rest i
  simp [dispatchFrom, h1]

theorem delete_failure_reported_aborts_witness :
    agDel.process_file ["data", "f.csv"] true false =
      { result := RunResult.err SyncError.deleteFailed, upload_key := some "f.csv",
        upload_ok := true, delete_invoked := true, file_removed := false } :=
  (delete_failure_reported_aborts agDel ["data", "f.csv"] "f.csv"
    (by decide) (by decide)).1

theorem foldl_step1_some (l : List PathSettings) (t : PathSettings) :
    l.foldl step1 (some t) =
      some (l.foldl (fun u x => PathSettings.add x u) t) := by
  induction l generalizing t with
  | nil => rfl
  | cons x xs ih => simp [List.foldl_cons, step1, ih]

theorem settingsMap_foldl (l : List Agent) (m : List String → Option PathSettings)
    (r : List String) :
    (l.foldl Manager.settingsMapStep m) r =
      ((l.filter (sameRoot r)).map (fun a => a.watcher.settings)).foldl step1 (m r) := by
  induction l generalizing m with
  | nil => rfl
  | cons a l ih =>
    rw [List.foldl_cons, ih]
    by_cases h : a.watcher.local_path = r
    · rw [List.filter_cons_of_pos (by simp [sameRoot, h])]
      rw [List.map_cons, List.foldl_cons]
      congr 1
      simp [Manager.settingsMapStep, h]
    · rw [List.filter_cons_of_neg (by simp [sameRoot, h])]
      congr 1
      have h2 : ¬ (r = a.watcher.local_path) := fun hh => h hh.symm
      simp [Manager.settingsMapStep, h2]

theorem fold_bounds (l : List PathSettings) (s : PathSettings) :
    (∀ t ∈ l, (l.foldl (fun u x => PathSettings.add x u) s).window_eff ≤ t.window_eff) ∧
    (l.foldl (fun u x => PathSettings.add x u) s).window_eff ≤ s.window_eff ∧
    ((l.foldl (fun u x => PathSettings.add x u) s).window_eff = s.window_eff ∨
      ∃ t ∈ l, (l.foldl (fun u x => PathSettings.add x u) s).window_eff = t.window_eff) ∧
    (l.foldl (fun u x => PathSettings.add x u) s).recursive_eff
      = (s.recursive_eff || l.any (fun t => t.recursive_eff)) := by
  induction l generalizing s with
  | nil => simp
  | cons x xs ih =>
    obtain ⟨ih1, ih2, ih3, ih4⟩ := ih (PathSettings.add x s)
    have hw : (PathSettings.add x s).window_eff = min x.window_eff s.window_eff := by
      rw [PathSettings.add_eq]
      exact PathSettings.window_eff_mk _ _
    have hr : (PathSettings.add x s).recursive_eff = (x.recursive_eff || s.recursive_eff) := by
      rw [PathSettings.add_eq]
      exact PathSettings.recursive_eff_mk _ _
    rw [List.foldl_cons]
    refine ⟨?_, ?_, ?_, ?_⟩
    · intro t ht
      rcases List.mem_cons.mp ht with h | h
      · subst h
        refine le_trans ih2 ?_
        rw [hw]
        exact min_le_left _ _
      · exact ih1 t h
    · refine le_trans ih2 ?_
      rw [hw]
      exact min_le_right _ _
    · rcases ih3 with h | ⟨t, ht, hteq⟩
      · rw [hw] at h
        rcases le_total x.window_eff s.window_eff with hle | hle
        · exact Or.inr ⟨x, List.mem_cons_self x xs, by rw [h, min_eq_left hle]⟩
        · exact Or.inl (by rw [h, min_eq_right hle])
      · exact Or.inr ⟨t, List.mem_cons_of_mem x ht, hteq⟩
    · rw [ih4, hr]
      cases hx : x.recursive_eff <;> cases hs2 : s.recursive_eff <;> simp [hx, hs2]

theorem filterMap_mk_roots (F : List String → Option PathSettings)
    (L : List (List String)) (h : ∀ r ∈ L, (F r).isSome) :
    (L.filterMap (fun r => (F r).map (fun s => AgentWatcher.mk r s))).map
        AgentWatcher.local_path = L := by
  induction L with
  | nil => rfl
  | cons r L ih =>
    obtain ⟨s, hs⟩ := Option.isSome_iff_exists.mp (h r (List.mem_cons_self r L))
    rw [List.filterMap_cons]
    simp [hs, ih (fun x hx => h x (List.mem_cons_of_mem r hx))]

theorem settingsMap_isSome_of_mem (mgr : Manager) (r : List String)
    (h : r ∈ mgr.agents.map (fun a => a.watcher.local_path)) :
    (mgr.settingsMap r).isSome := by
  obtain ⟨a, ha, hpath⟩ := List.mem_map.mp h
  rw [Manager.settingsMap, settingsMap_foldl]
  have hmem : a ∈ mgr.agents.filter (sameRoot r) :=
    List.mem_filter.mpr ⟨ha, by simp [sameRoot, hpath]⟩
  rcases hfl : mgr.agents.filter (sameRoot r) with _ | ⟨b, bs⟩
  · rw [hfl] at hmem
    cases hmem
  · rw [List.map_cons, List.foldl_cons]
    have hstep : step1 (none : Option PathSettings) b.watcher.settings
        = some b.watcher.settings := rfl
    rw [hstep, foldl_step1_some]
    rfl

theorem watchers_map_roots (mgr : Manager) :
    mgr.watchers.map AgentWatcher.local_path =
      (mgr.agents.map (fun a => a.watcher.local_path)).dedup := by
  rw [Manager.watchers]
  exact filterMap_mk_roots mgr.settingsMap _ (fun r hr =>
    settingsMap_isSome_of_mem mgr r (List.mem_dedup.mp hr))

/-- C3: Manager::watchers creates exactly one watcher per distinct watch root
(the watcher roots are exactly the agent roots, without duplicates), and each
watcher's effective settings have the minimum of the contributing agents'
effective windows (lower bound, attained by some contributing agent) and a
recursive flag that is set iff some contributing agent requested recursion. -/
theorem watchers_one_per_root (mgr : Manager) (w : AgentWatcher)
    (hw : w ∈ mgr.watchers) :
    (mgr.watchers.map AgentWatcher.local_path).Nodup ∧
    (∀ a ∈ mgr.agents, ∃ u ∈ mgr.watchers, u.local_path = a.watcher.local_path) ∧
    (∀ a ∈ mgr.agents, a.watcher.local_path = w.local_path →
      w.settings.window_eff ≤ a.watcher.settings.window_eff) ∧
    (∃ a, a ∈ mgr.agents ∧ a.watcher.local_path = w.local_path ∧
      w.settings.window_eff = a.watcher.settings.window_eff) ∧
    (w.settings.recursive_eff =
      (mgr.agents.filter (sameRoot w.local_path)).any
        (fun a => a.watcher.settings.recursive_eff)) := by
  have hroots := watchers_map_roots mgr
  obtain ⟨r, hr, hmk⟩ := List.mem_filterMap.mp hw
  rcases hsm : mgr.settingsMap r with _ | s
  · rw [hsm] at hmk
    cases hmk
  · rw [hsm] at hmk
    have hw2 : AgentWatcher.mk r s = w := by
      have : Option.map (fun s => AgentWatcher.mk r s) (some s)
          = some (AgentWatcher.mk r s) := rfl
      rw [this] at hmk
      exact Option.some.inj hmk
    have hl : w.local_path = r := by rw [← hw2]
    have hsv : w.settings = s := by rw [← hw2]
    rw [Manager.settingsMap, settingsMap_foldl] at hsm
    rcases hfl : mgr.agents.filter (sameRoot r) with _ | ⟨b, bs⟩
    · rw [hfl] at hsm
      cases hsm
    · rw [hfl, List.map_cons, List.foldl_cons] at hsm
      have hstep : step1 (none : Option PathSettings) b.watcher.settings
          = some b.watcher.settings := rfl
      rw [hstep, foldl_step1_some] at hsm
      have hsval : s = (bs.map (fun a => a.watcher.settings)).foldl
          (fun u x => PathSettings.add x u) b.watcher.settings :=
        (Option.some.inj hsm).symm
      obtain ⟨f1, f2, f3, f4⟩ :=
        fold_bounds (bs.map (fun a => a.watcher.settings)) b.watcher.settings
      have hbmem : b ∈ mgr.agents ∧ sameRoot r b = true := by
        have : b ∈ mgr.agents.filter (sameRoot r) := by
          rw [hfl]
          exact List.mem_cons_self b bs
        exact List.mem_filter.mp this
      have hbroot : b.watcher.local_path = r := by
        have := hbmem.2
        simpa [sameRoot] using this
      refine ⟨?_, ?_, ?_, ?_, ?_⟩
      · rw [hroots]
        exact List.nodup_dedup _
      · intro a ha
        have hmm : a.watcher.local_path ∈ mgr.watchers.map AgentWatcher.local_path := by
          rw [hroots]
          exact List.mem_dedup.mpr (List.mem_map_of_mem _ ha)
        obtain ⟨u, hu, hueq⟩ := List.mem_map.mp hmm
        exact ⟨u, hu, hueq⟩
      · intro a ha hpath
        have hafl : a ∈ mgr.agents.filter (sameRoot r) :=
          List.mem_filter.mpr ⟨ha, by simp [sameRoot, hpath, hl]⟩
        rw [hfl] at hafl
        rw [hsv, hsval]
        rcases List.mem_cons.mp hafl with h | h
        · subst h
          exact f2
        · exact f1 a.watcher.settings (List.mem_map_of_mem _ h)
      · rcases f3 with h | ⟨t, ht, hteq⟩
        · exact ⟨b, hbmem.1, by rw [hbroot, hl], by rw [hsv, hsval, h]⟩
        · obtain ⟨a2, ha2, ha2eq⟩ := List.mem_map.mp ht
          have ha2fl : a2 ∈ mgr.agents.filter (sameRoot r) := by
            rw [hfl]
            exact List.mem_cons_of_mem b ha2
          obtain ⟨ha2m, ha2r⟩ := List.mem_filter.mp ha2fl
          have ha2root : a2.watcher.local_path = r := by simpa [sameRoot] using ha2r
          refine ⟨a2, ha2m, by rw [ha2root, hl], ?_⟩
          rw [hsv, hsval, hteq, ha2eq]
      · rw [hsv, hsval, f4, hl, hfl, List.any_cons]
        have hmapany : ∀ l : List Agent, (l.map (fun a => a.watcher.settings)).any
            (fun t => t.recursive_eff) = l.any (fun a => a.watcher.settings.recursive_eff) := by
          intro l
          induction l with
          | nil => rfl
          | cons c cs ih => simp [List.any_cons, ih]
        rw [hmapany]

theorem watchers_one_per_root_witness :
    (mgrW.watchers.map AgentWatcher.local_path).Nodup ∧
    wW.settings.window_eff ≤ agWa.watcher.settings.window_eff ∧
    wW.settings.recursive_eff =
      (mgrW.agents.filter (sameRoot wW.local_path)).any
        (fun a => a.watcher.settings.recursive_eff) := by
  have h := watchers_one_per_root mgrW wW (by decide)
  exact ⟨h.1, h.2.2.1 agWa (List.mem_cons_self agWa [agWb]) (by decide), h.2.2.2.2⟩
